import Mathlib

set_option maxHeartbeats 1000000

/-! Shallow embedding of the call-log trailer parser of this repository
(`app.py` and `call_logs.py`).  Python dictionaries are modelled as ordered
association lists with overwrite-on-duplicate-key assignment, Python string
and list operations by explicit Lean counterparts, and fallible operations
by `Option`.  The repository contains two near-duplicate pipelines; both are
embedded, in the namespaces `App` (for `app.py`) and `CallLogs`
(for `call_logs.py`). -/

/-- A Python `dict` with string keys and values: an ordered association list
whose keys are unique; assignment overwrites in place. -/
abbrev Dict := List (String × String)

/-- Python `d[k] = v`: overwrite the value in place when `k` is present,
otherwise append the new pair at the end (insertion order). -/
def dictInsert (d : Dict) (k v : String) : Dict :=
  if d.any (fun p => p.1 = k) then d.map (fun p => if p.1 = k then (k, v) else p)
  else d ++ [(k, v)]

/-- Python `str.split(sep)` for a one-character separator, over the character
list: always at least one (possibly empty) piece; adjacent separators yield
empty pieces.  (Structurally recursive so that concrete inputs reduce in the
kernel.) -/
def splitCharList (c : Char) : List Char → List (List Char)
  | [] => [[]]
  | ch :: rest =>
    let r := splitCharList c rest
    if ch = c then [] :: r
    else
      match r with
      | [] => [[ch]]
      | h :: t => (ch :: h) :: t

/-- Python `s.split(c)` for a one-character separator `c`. -/
def pySplit (s : String) (c : Char) : List String :=
  (splitCharList c s.data).map String.mk

/-- Python `s.strip()` with no argument: remove leading and trailing
whitespace.  (`Char.isWhitespace` covers space, tab, CR and LF; the extra
ASCII and Unicode space characters CPython would also strip do not occur in
this repository's inputs and are not modelled.) -/
def pyStrip (s : String) : String :=
  String.mk (((s.data.dropWhile Char.isWhitespace).reverse.dropWhile Char.isWhitespace).reverse)

/-- Python `sep.join(pieces)`. -/
def joinWith (sep : String) : List String → String
  | [] => ""
  | [x] => x
  | x :: rest => x ++ sep ++ joinWith sep rest

/-- Python `field.split(c, 1)` under the guard `':' in field`: `none` when the
string holds no colon, otherwise the text before the first colon paired with
the text after it (which may itself contain further colons). -/
def splitFirstColon (s : String) : Option (String × String) :=
  match pySplit s ':' with
  | [] => none
  | [_] => none
  | k :: rest => some (k, joinWith ":" rest)

/-- Python `int(s)` on an already-stripped string, restricted to ASCII: an
optional sign followed by one or more decimal digits; anything else raises
`ValueError`, modelled as `none`.  (Underscore separators and non-ASCII
digits, which CPython would also accept, do not occur in this repository's
inputs and are not modelled.) -/
def parseInt (s : String) : Option Int :=
  let withSign (sign : Int) (digits : List Char) : Option Int :=
    if digits ≠ [] ∧ digits.all Char.isDigit then
      some (sign * ((digits.foldl (fun acc d => acc * 10 + (d.toNat - Char.toNat '0')) 0 : Nat) : Int))
    else none
  match s.data with
  | [] => none
  | c :: rest =>
    if c = '-' then withSign (-1) rest
    else if c = '+' then withSign 1 rest
    else withSign 1 (c :: rest)

/-- Normalise one Python slice endpoint against a list length: a negative
index counts from the end, and the result is clamped into `[0, len]`. -/
def pySliceIdx (len : Nat) (i : Int) : Nat :=
  if i < 0 then (max 0 ((len : Int) + i)).toNat else (min i (len : Int)).toNat

/-- Python `l[a:b]` (step 1). -/
def pySlice (l : List String) (a b : Int) : List String :=
  let s := pySliceIdx l.length a
  let e := pySliceIdx l.length b
  (l.drop s).take (e - s)

/-- Python `l[i]` with negative-index wrap-around; `none` models
`IndexError`. -/
def pyGet (l : List String) (i : Int) : Option String :=
  if 0 ≤ i then l.get? i.toNat
  else if 0 ≤ i + l.length then l.get? (i + l.length).toNat
  else none

/-- `parse_log_line`, textually identical in `app.py` (lines 49-63) and
`call_logs.py` (lines 22-42): split on `|`; fewer than two segments yields
`None`; otherwise build a dict from the segments after the first two,
splitting each at its first colon and silently skipping segments without
one.  The `try/except` around the body can never fire (no operation in it
raises) and contributes nothing to the model. -/
def parse_log_line (line : String) : Option Dict :=
  let parts := pySplit line '|'
  if parts.length < 2 then none
  else some ((parts.drop 2).foldl
    (fun parsed field =>
      match splitFirstColon field with
      | none => parsed
      | some kv => dictInsert parsed kv.1 kv.2) [])

/-- What one call to a `save_to_json` variant leaves behind and shows its
caller: the durable store afterwards (`none` means the JSON file does not
exist), whether an exception escaped to the caller, and the Python return
value (`none` models Python `None`; `some b` would model a boolean). -/
structure SaveOutcome (α : Type) where
  fs : Option (List α)
  raisedToCaller : Bool
  returned : Option Bool
deriving Repr, DecidableEq

namespace App

/-- The Persian unknown-marker string `app.py` stores when no Number line is
found (line 102). -/
def unknownMarker : String := "نامشخص"

/-- One record of `app.py`'s `database.json`: the dict literal built at
`app.py` line 82. -/
structure Entry where
  FileName : String
  Info : Option Dict
  Info_line : Option String
  Number : Option Dict
  CallWindow : Option Dict
deriving Repr, DecidableEq

/-- The body of `app.py`'s per-line loop (lines 84-99): strip, split on `|`,
skip when fewer than two segments result or when the parsed dict is falsy
(Python `if not parsed`: `None` or the empty dict), otherwise dispatch on the
stripped second segment. -/
def step (e : Entry) (raw : String) : Entry :=
  let line := pyStrip raw
  let parts := pySplit line '|'
  if parts.length < 2 then e
  else
    let lineType := pyStrip ((parts.get? 1).getD "")
    match parse_log_line line with
    | none => e
    | some parsed =>
      if parsed = [] then e
      else if lineType = "Info" then { e with Info := some parsed, Info_line := some line }
      else if lineType = "Number" then { e with Number := some parsed }
      else if lineType = "CallWindow" then { e with CallWindow := some parsed }
      else e

/-- `app.py` lines 101-102: default the `Number` field to the sentinel dict
when it was never set. -/
def finish (e : Entry) : Entry :=
  if e.Number = none then { e with Number := some [("Number", unknownMarker)] } else e

/-- The empty record `app.py` initialises at line 82. -/
def init (file_name : String) : Entry :=
  { FileName := file_name, Info := none, Info_line := none, Number := none, CallWindow := none }

/-- `app.py`'s `process_logs` (lines 65-104): sentinel check, count-line
parse, clamped window slice, per-line assembly, Number defaulting. -/
def process_logs (lines : List String) (file_name : String) : Option Entry :=
  if lines.length < 2 then none
  else if pyStrip ((lines.getLast?).getD "") ≠ "Telsa64" then none
  else
    let count_line_index : Nat := lines.length - 2
    match parseInt (pyStrip ((lines.get? count_line_index).getD "")) with
    | none => none
    | some n =>
      let start_index : Int := max 0 ((count_line_index : Int) - n)
      let selected_lines := pySlice lines start_index (count_line_index : Int)
      some (finish (selected_lines.foldl step (init file_name)))

/-- `app.py`'s `save_to_json` (lines 106-121) over an explicit durable state,
with fault injection: `readOk = false` makes the `json.load` raise and
`writeOk = false` makes the write raise.  Every exception is caught and
logged by the function's own `try/except`; a failed write is modelled as
leaving the durable state unchanged (possible truncation by a partially
completed `json.dump` is outside the model).  The function ends without
`return`, so the caller always receives Python `None`. -/
def save_to_json (fs : Option (List Entry)) (readOk writeOk : Bool) (e : Entry) :
    SaveOutcome Entry :=
  match fs with
  | none =>
    if writeOk then { fs := some [e], raisedToCaller := false, returned := none }
    else { fs := none, raisedToCaller := false, returned := none }
  | some db =>
    if readOk then
      if db.any (fun x => x.FileName = e.FileName) then
        { fs := some db, raisedToCaller := false, returned := none }
      else if writeOk then
        { fs := some (db ++ [e]), raisedToCaller := false, returned := none }
      else { fs := some db, raisedToCaller := false, returned := none }
    else { fs := some db, raisedToCaller := false, returned := none }

end App

namespace CallLogs

/-- One record built by `call_logs.py`'s `process_logs`: the dict literal at
lines 76-81.  Unlike `app.py`'s record it has no `Info_line` field. -/
structure Entry where
  FileName : String
  Info : Option Dict
  Number : Option Dict
  CallWindow : Option Dict
deriving Repr, DecidableEq

/-- The body of `call_logs.py`'s per-line loop (lines 84-103).  As in
`app.py`, a falsy parse result (Python `if not parsed_data`) skips the line;
an Info line additionally has `Date` (the first `|`-segment) and `RawLine`
(the stripped line) assigned into its parsed dict before it is stored. -/
def step (e : Entry) (raw : String) : Entry :=
  let line := pyStrip raw
  let parts := pySplit line '|'
  if parts.length < 2 then e
  else
    let lineType := pyStrip ((parts.get? 1).getD "")
    match parse_log_line line with
    | none => e
    | some parsed =>
      if parsed = [] then e
      else if lineType = "Info" then
        { e with Info := some (dictInsert (dictInsert parsed "Date" ((parts.get? 0).getD "")) "RawLine" line) }
      else if lineType = "Number" then { e with Number := some parsed }
      else if lineType = "CallWindow" then { e with CallWindow := some parsed }
      else e

/-- `call_logs.py` lines 106-108: default the `Number` field to the sentinel
dict `{"Number": "null"}` when it was never set. -/
def finish (e : Entry) : Entry :=
  if e.Number = none then { e with Number := some [("Number", "null")] } else e

/-- The empty record `call_logs.py` initialises at lines 76-81. -/
def init (file_name : String) : Entry :=
  { FileName := file_name, Info := none, Number := none, CallWindow := none }

/-- `call_logs.py`'s `process_logs` (lines 44-111).  It differs from the
`app.py` variant in two places: `count_line_index` is used through Python
indexing (so a one-line file reads its own last line as the count line), and
a window start below zero is a hard failure (`return None`) instead of being
clamped. -/
def process_logs (lines : List String) (file_name : String) : Option Entry :=
  if lines = [] then none
  else if pyStrip ((lines.getLast?).getD "") ≠ "Telsa64" then none
  else
    let count_line_index : Int := (lines.length : Int) - 2
    match pyGet lines count_line_index with
    | none => none
    | some countLine =>
      match parseInt (pyStrip countLine) with
      | none => none
      | some n =>
        let start_index : Int := count_line_index - n
        if start_index < 0 then none
        else
          let selected_lines := pySlice lines start_index count_line_index
          some (finish (selected_lines.foldl step (init file_name)))

/-- `call_logs.py`'s `save_to_json` (lines 113-130) over an explicit durable
state, with the same fault-injection convention as `App.save_to_json`.
This variant performs no duplicate check: it always appends.  All exceptions
are caught and logged; the function returns Python `None`. -/
def save_to_json (fs : Option (List Entry)) (readOk writeOk : Bool) (e : Entry) :
    SaveOutcome Entry :=
  match fs with
  | none =>
    if writeOk then { fs := some [e], raisedToCaller := false, returned := none }
    else { fs := none, raisedToCaller := false, returned := none }
  | some db =>
    if readOk then
      if writeOk then { fs := some (db ++ [e]), raisedToCaller := false, returned := none }
      else { fs := some db, raisedToCaller := false, returned := none }
    else { fs := some db, raisedToCaller := false, returned := none }

end CallLogs

/-- The record-type discriminator both per-line loops dispatch on: the
stripped second `|`-segment of the stripped line. -/
def lineType (raw : String) : String :=
  pyStrip (((pySplit (pyStrip raw) '|').get? 1).getD "")

/-- The exact condition under which the per-line loop of either pipeline
assigns the `Number` field for a window line: at least two `|`-segments,
discriminator `"Number"`, and a non-empty parsed dict (Python skips a falsy
parse result). -/
def isNumberLine (raw : String) : Bool :=
  decide (2 ≤ (pySplit (pyStrip raw) '|').length ∧ lineType raw = "Number" ∧
    (parse_log_line (pyStrip raw)).getD [] ≠ [])

/-- Join character-list pieces with a single separator character; the
list-level counterpart of `joinWith`. -/
def joinCharList (c : Char) : List (List Char) → List Char
  | [] => []
  | [x] => x
  | x :: rest => x ++ c :: joinCharList c rest

theorem app_step_FileName (e : App.Entry) (raw : String) :
    (App.step e raw).FileName = e.FileName := by
  simp only [App.step]
  repeat' split
  all_goals rfl

theorem cl_step_FileName (e : CallLogs.Entry) (raw : String) :
    (CallLogs.step e raw).FileName = e.FileName := by
  simp only [CallLogs.step]
  repeat' split
  all_goals rfl

theorem app_foldl_step_FileName (w : List String) (e : App.Entry) :
    (w.foldl App.step e).FileName = e.FileName := by
  induction w generalizing e with
  | nil => rfl
  | cons a w ih => rw [List.foldl_cons, ih, app_step_FileName]

theorem cl_foldl_step_FileName (w : List String) (e : CallLogs.Entry) :
    (w.foldl CallLogs.step e).FileName = e.FileName := by
  induction w generalizing e with
  | nil => rfl
  | cons a w ih => rw [List.foldl_cons, ih, cl_step_FileName]

theorem app_finish_Number_isSome (e : App.Entry) : (App.finish e).Number.isSome := by
  unfold App.finish
  split
  · rfl
  · rename_i h
    exact Option.isSome_iff_ne_none.mpr h

theorem cl_finish_Number_isSome (e : CallLogs.Entry) : (CallLogs.finish e).Number.isSome := by
  unfold CallLogs.finish
  split
  · rfl
  · rename_i h
    exact Option.isSome_iff_ne_none.mpr h

theorem app_finish_FileName (e : App.Entry) : (App.finish e).FileName = e.FileName := by
  unfold App.finish
  split <;> rfl

theorem cl_finish_FileName (e : CallLogs.Entry) : (CallLogs.finish e).FileName = e.FileName := by
  unfold CallLogs.finish
  split <;> rfl

theorem parse_some_len (s : String) (d : Dict) (hp : parse_log_line s = some d) :
    ¬ (pySplit s '|').length < 2 := by
  intro hlt
  simp only [parse_log_line] at hp
  rw [if_pos hlt] at hp
  exact Option.noConfusion hp

theorem app_step_Number_of_not (e : App.Entry) (raw : String)
    (h : isNumberLine raw = false) : (App.step e raw).Number = e.Number := by
  simp only [App.step]
  split
  · rfl
  rename_i hlen
  split
  · rfl
  rename_i parsed heq
  split
  · rfl
  rename_i hne
  split
  · rfl
  split
  · rename_i htype
    exfalso
    simp only [isNumberLine, lineType, decide_eq_false_iff_not] at h
    exact h ⟨by omega, htype, by rw [heq]; simpa using hne⟩
  split
  · rfl
  · rfl

theorem cl_step_Number_of_not (e : CallLogs.Entry) (raw : String)
    (h : isNumberLine raw = false) : (CallLogs.step e raw).Number = e.Number := by
  simp only [CallLogs.step]
  split
  · rfl
  rename_i hlen
  split
  · rfl
  rename_i parsed heq
  split
  · rfl
  rename_i hne
  split
  · rfl
  split
  · rename_i htype
    exfalso
    simp only [isNumberLine, lineType, decide_eq_false_iff_not] at h
    exact h ⟨by omega, htype, by rw [heq]; simpa using hne⟩
  split
  · rfl
  · rfl

theorem app_foldl_step_Number_none (w : List String) (e : App.Entry)
    (h : ∀ l ∈ w, isNumberLine l = false) (he : e.Number = none) :
    (w.foldl App.step e).Number = none := by
  induction w generalizing e with
  | nil => exact he
  | cons a w ih =>
    rw [List.foldl_cons]
    exact ih (App.step e a) (fun l hl => h l (List.mem_cons_of_mem _ hl))
      ((app_step_Number_of_not e a (h a (List.mem_cons_self a w))).trans he)

theorem cl_foldl_step_Number_none (w : List String) (e : CallLogs.Entry)
    (h : ∀ l ∈ w, isNumberLine l = false) (he : e.Number = none) :
    (w.foldl CallLogs.step e).Number = none := by
  induction w generalizing e with
  | nil => exact he
  | cons a w ih =>
    rw [List.foldl_cons]
    exact ih (CallLogs.step e a) (fun l hl => h l (List.mem_cons_of_mem _ hl))
      ((cl_step_Number_of_not e a (h a (List.mem_cons_self a w))).trans he)

theorem app_step_Info_cases (e : App.Entry) (raw : String) :
    ((App.step e raw).Info = e.Info ∧ (App.step e raw).Info_line = e.Info_line) ∨
    (∃ d, parse_log_line (pyStrip raw) = some d ∧ d ≠ [] ∧
      (App.step e raw).Info = some d ∧ (App.step e raw).Info_line = some (pyStrip raw)) := by
  simp only [App.step]
  split
  · exact Or.inl ⟨rfl, rfl⟩
  split
  · exact Or.inl ⟨rfl, rfl⟩
  rename_i parsed heq
  split
  · exact Or.inl ⟨rfl, rfl⟩
  rename_i hne
  split
  · exact Or.inr ⟨parsed, heq, hne, rfl, rfl⟩
  split
  · exact Or.inl ⟨rfl, rfl⟩
  split
  · exact Or.inl ⟨rfl, rfl⟩
  · exact Or.inl ⟨rfl, rfl⟩

theorem app_foldl_step_Info (w : List String) (e : App.Entry) :
    ((w.foldl App.step e).Info = e.Info ∧ (w.foldl App.step e).Info_line = e.Info_line) ∨
    (∃ l ∈ w, ∃ d, parse_log_line (pyStrip l) = some d ∧ d ≠ [] ∧
      (w.foldl App.step e).Info = some d ∧ (w.foldl App.step e).Info_line = some (pyStrip l)) := by
  induction w generalizing e with
  | nil => exact Or.inl ⟨rfl, rfl⟩
  | cons a w ih =>
    rw [List.foldl_cons]
    rcases ih (App.step e a) with ⟨h1, h2⟩ | ⟨l, hl, d, hd⟩
    · rcases app_step_Info_cases e a with ⟨g1, g2⟩ | ⟨d, hd⟩
      · exact Or.inl ⟨h1.trans g1, h2.trans g2⟩
      · exact Or.inr ⟨a, List.mem_cons_self a w, d, hd.1, hd.2.1, h1.trans hd.2.2.1, h2.trans hd.2.2.2⟩
    · exact Or.inr ⟨l, List.mem_cons_of_mem _ hl, d, hd⟩

theorem app_step_sets (e : App.Entry) (raw : String) (d : Dict)
    (hp : parse_log_line (pyStrip raw) = some d) (hd : d ≠ []) :
    (lineType raw = "Info" →
      (App.step e raw).Info = some d ∧ (App.step e raw).Info_line = some (pyStrip raw)) ∧
    (lineType raw = "Number" → (App.step e raw).Number = some d) ∧
    (lineType raw = "CallWindow" → (App.step e raw).CallWindow = some d) := by
  simp only [App.step, lineType] at *
  rw [if_neg (parse_some_len _ _ hp), hp]
  simp only [if_neg hd]
  refine ⟨fun ht => ?_, fun ht => ?_, fun ht => ?_⟩
  · rw [if_pos ht]
    exact ⟨rfl, rfl⟩
  · rw [ht]
    rw [if_neg (by decide), if_pos rfl]
  · rw [ht]
    rw [if_neg (by decide), if_neg (by decide), if_pos rfl]

theorem cl_step_sets (e : CallLogs.Entry) (raw : String) (d : Dict)
    (hp : parse_log_line (pyStrip raw) = some d) (hd : d ≠ []) :
    (lineType raw = "Info" →
      (CallLogs.step e raw).Info =
        some (dictInsert (dictInsert d "Date" (((pySplit (pyStrip raw) '|').get? 0).getD ""))
          "RawLine" (pyStrip raw))) ∧
    (lineType raw = "Number" → (CallLogs.step e raw).Number = some d) ∧
    (lineType raw = "CallWindow" → (CallLogs.step e raw).CallWindow = some d) := by
  simp only [CallLogs.step, lineType] at *
  rw [if_neg (parse_some_len _ _ hp), hp]
  simp only [if_neg hd]
  refine ⟨fun ht => ?_, fun ht => ?_, fun ht => ?_⟩
  · rw [if_pos ht]
  · rw [ht]
    rw [if_neg (by decide), if_pos rfl]
  · rw [ht]
    rw [if_neg (by decide), if_neg (by decide), if_pos rfl]

theorem pySlice_nil (l : List String) (a b : Int)
    (h : pySliceIdx l.length b ≤ pySliceIdx l.length a) : pySlice l a b = [] := by
  simp only [pySlice]
  rw [Nat.sub_eq_zero_of_le h]
  exact List.take_zero _

theorem pySliceIdx_mono (len : Nat) (a b : Int) (hb : 0 ≤ b) (hab : b ≤ a) :
    pySliceIdx len b ≤ pySliceIdx len a := by
  simp only [pySliceIdx]
  rw [if_neg (by omega), if_neg (by omega)]
  exact Int.toNat_le_toNat (min_le_min hab le_rfl)

theorem pySlice_zero (l : List String) (b : Int) (hb : 0 ≤ b) (hbl : b ≤ l.length) :
    pySlice l 0 b = l.take b.toNat := by
  simp only [pySlice, pySliceIdx]
  rw [if_neg (by omega), if_neg (by omega), min_eq_left hbl,
    min_eq_left (Int.ofNat_nonneg l.length)]
  simp

theorem pyGet_nonneg (l : List String) (h2 : 2 ≤ l.length) :
    pyGet l ((l.length : Int) - 2) = l.get? (l.length - 2) := by
  simp only [pyGet]
  rw [if_pos (by omega)]
  congr 1
  omega

theorem app_process_logs_eq (lines : List String) (name : String) (n : Int)
    (h2 : 2 ≤ lines.length)
    (hs : pyStrip ((lines.getLast?).getD "") = "Telsa64")
    (hn : parseInt (pyStrip ((lines.get? (lines.length - 2)).getD "")) = some n) :
    App.process_logs lines name =
      some (App.finish
        ((pySlice lines (max 0 (((lines.length - 2 : Nat) : Int) - n))
            ((lines.length - 2 : Nat) : Int)).foldl App.step (App.init name))) := by
  simp only [App.process_logs]
  rw [if_neg (by omega), if_neg (not_not_intro hs), hn]

theorem app_process_logs_some (lines : List String) (name : String) (r : App.Entry)
    (h : App.process_logs lines name = some r) :
    ∃ n, parseInt (pyStrip ((lines.get? (lines.length - 2)).getD "")) = some n ∧
      r = App.finish
        ((pySlice lines (max 0 (((lines.length - 2 : Nat) : Int) - n))
            ((lines.length - 2 : Nat) : Int)).foldl App.step (App.init name)) := by
  simp only [App.process_logs] at h
  split at h
  · exact absurd h (by simp)
  split at h
  · exact absurd h (by simp)
  split at h
  · exact absurd h (by simp)
  rename_i n hn
  injection h with h
  exact ⟨n, hn, h.symm⟩

theorem cl_process_logs_eq (lines : List String) (name : String) (n : Int)
    (h2 : 2 ≤ lines.length)
    (hs : pyStrip ((lines.getLast?).getD "") = "Telsa64")
    (hn : parseInt (pyStrip ((lines.get? (lines.length - 2)).getD "")) = some n)
    (hnn : 0 ≤ (lines.length : Int) - 2 - n) :
    CallLogs.process_logs lines name =
      some (CallLogs.finish
        ((pySlice lines ((lines.length : Int) - 2 - n)
            ((lines.length : Int) - 2)).foldl CallLogs.step (CallLogs.init name))) := by
  obtain ⟨c, hc⟩ : ∃ c, lines.get? (lines.length - 2) = some c := by
    cases hg : lines.get? (lines.length - 2) with
    | none =>
      have := List.get?_eq_none.mp hg
      omega
    | some c => exact ⟨c, rfl⟩
  simp only [CallLogs.process_logs]
  rw [if_neg (by intro he; rw [he] at h2; simp at h2), if_neg (not_not_intro hs),
    pyGet_nonneg lines h2, hc]
  rw [hc] at hn
  simp only [Option.getD_some] at hn
  simp only [hn]
  rw [if_neg (by omega)]

theorem cl_process_logs_some (lines : List String) (name : String) (r : CallLogs.Entry)
    (h : CallLogs.process_logs lines name = some r) :
    ∃ c n, pyGet lines ((lines.length : Int) - 2) = some c ∧
      parseInt (pyStrip c) = some n ∧ 0 ≤ (lines.length : Int) - 2 - n ∧
      r = CallLogs.finish
        ((pySlice lines ((lines.length : Int) - 2 - n)
            ((lines.length : Int) - 2)).foldl CallLogs.step (CallLogs.init name)) := by
  simp only [CallLogs.process_logs] at h
  split at h
  · exact absurd h (by simp)
  split at h
  · exact absurd h (by simp)
  split at h
  · exact absurd h (by simp)
  rename_i c hc
  split at h
  · exact absurd h (by simp)
  rename_i n hn
  split at h
  · exact absurd h (by simp)
  rename_i hnn
  injection h with h
  exact ⟨c, n, hc, hn, by omega, h.symm⟩

theorem splitCharList_cons (c : Char) (l : List Char) :
    ∃ h t, splitCharList c l = h :: t := by
  induction l with
  | nil => exact ⟨[], [], rfl⟩
  | cons ch rest ih =>
    obtain ⟨h, t, hr⟩ := ih
    simp only [splitCharList, hr]
    by_cases hc : ch = c
    · rw [if_pos hc]
      exact ⟨[], h :: t, rfl⟩
    · rw [if_neg hc]
      exact ⟨ch :: h, t, rfl⟩

theorem joinCharList_splitCharList (c : Char) (l : List Char) :
    joinCharList c (splitCharList c l) = l := by
  induction l with
  | nil => rfl
  | cons ch rest ih =>
    obtain ⟨h, t, hr⟩ := splitCharList_cons c rest
    simp only [splitCharList, hr]
    rw [hr] at ih
    by_cases hc : ch = c
    · rw [if_pos hc]
      subst hc
      simp only [joinCharList, List.nil_append]
      rw [ih]
    · rw [if_neg hc]
      cases t with
      | nil =>
        simp only [joinCharList] at ih ⊢
        rw [ih]
      | cons t0 t1 =>
        simp only [joinCharList] at ih ⊢
        rw [List.cons_append, ih]

theorem joinWith_mk (c : Char) (pieces : List (List Char)) :
    joinWith (String.mk [c]) (pieces.map String.mk) = String.mk (joinCharList c pieces) := by
  induction pieces with
  | nil => rfl
  | cons x rest ih =>
    cases rest with
    | nil => rfl
    | cons y t =>
      simp only [List.map_cons] at ih ⊢
      simp only [joinWith, joinCharList]
      rw [ih]
      show String.mk ((x ++ [c]) ++ joinCharList c (y :: t)) = String.mk (x ++ c :: joinCharList c (y :: t))
      congr 1
      simp

theorem splitCharList_head_not_mem (c : Char) (l : List Char) (h : List Char)
    (t : List (List Char)) (hs : splitCharList c l = h :: t) : c ∉ h := by
  induction l generalizing h t with
  | nil =>
    simp only [splitCharList] at hs
    injection hs with h1 _
    rw [← h1]
    simp
  | cons ch rest ih =>
    obtain ⟨h0, t0, hr⟩ := splitCharList_cons c rest
    simp only [splitCharList, hr] at hs
    by_cases hc : ch = c
    · rw [if_pos hc] at hs
      injection hs with h1 _
      rw [← h1]
      simp
    · rw [if_neg hc] at hs
      injection hs with h1 _
      rw [← h1]
      simp only [List.mem_cons, not_or]
      exact ⟨fun he => hc he.symm, ih h0 t0 hr⟩

theorem splitCharList_eq_single_iff (c : Char) (l : List Char) :
    splitCharList c l = [l] ↔ c ∉ l := by
  induction l with
  | nil => simp [splitCharList]
  | cons ch rest ih =>
    obtain ⟨h0, t0, hr⟩ := splitCharList_cons c rest
    rw [hr] at ih
    simp only [splitCharList, hr]
    by_cases hc : ch = c
    · rw [if_pos hc]
      subst hc
      constructor
      · intro h
        injection h with h1 _
        exact absurd h1 (by simp)
      · intro h
        exact absurd (List.mem_cons_self ch rest) h
    · rw [if_neg hc]
      constructor
      · intro h
        have h1 : ch :: h0 = ch :: rest ∧ t0 = [] := by
          refine ⟨?_, ?_⟩ <;> injection h
        have h0r : h0 = rest := by injection h1.1
        simp only [List.mem_cons, not_or]
        exact ⟨fun he => hc he.symm, ih.mp (by rw [h0r, h1.2])⟩
      · intro h
        simp only [List.mem_cons, not_or] at h
        have h2 := ih.mpr h.2
        have h0r : h0 = rest := by injection h2
        have ht0 : t0 = [] := by injection h2
        rw [h0r, ht0]

theorem splitFirstColon_none_iff (s : String) :
    splitFirstColon s = none ↔ ':' ∉ s.data := by
  obtain ⟨h0, t0, hr⟩ := splitCharList_cons ':' s.data
  simp only [splitFirstColon, pySplit, hr, List.map_cons]
  cases t0 with
  | nil =>
    have h0s : h0 = s.data := by
      have h2 := joinCharList_splitCharList ':' s.data
      rw [hr] at h2
      simpa only [joinCharList] using h2
    exact iff_of_true rfl ((splitCharList_eq_single_iff ':' s.data).mp (by rw [hr, h0s]))
  | cons t1 t2 =>
    refine iff_of_false (by simp) (fun hno => ?_)
    have h2 := (splitCharList_eq_single_iff ':' s.data).mpr hno
    rw [hr] at h2
    have : t1 :: t2 = [] := by injection h2
    exact List.noConfusion this

theorem splitFirstColon_some (s k v : String) (h : splitFirstColon s = some (k, v)) :
    ':' ∉ k.data ∧ s = k ++ ":" ++ v := by
  obtain ⟨h0, t0, hr⟩ := splitCharList_cons ':' s.data
  simp only [splitFirstColon, pySplit, hr, List.map_cons] at h
  cases t0 with
  | nil => exact absurd h (by simp)
  | cons t1 t2 =>
    injection h with h
    have hk : String.mk h0 = k := congrArg Prod.fst h
    have hv : joinWith ":" (List.map String.mk (t1 :: t2)) = v := congrArg Prod.snd h
    have hrec := joinCharList_splitCharList ':' s.data
    rw [hr] at hrec
    simp only [joinCharList] at hrec
    have hj : v = String.mk (joinCharList ':' (t1 :: t2)) := by
      rw [← hv, show (":" : String) = String.mk [':'] from rfl]
      exact joinWith_mk ':' (t1 :: t2)
    constructor
    · rw [← hk]
      show ':' ∉ h0
      exact splitCharList_head_not_mem ':' s.data h0 _ hr
    · apply String.ext
      rw [← hk, hj]
      show s.data = (String.mk h0 ++ ":" ++ String.mk (joinCharList ':' (t1 :: t2))).data
      rw [← hrec]
      show h0 ++ ':' :: joinCharList ':' (t1 :: t2) = (h0 ++ [':']) ++ joinCharList ':' (t1 :: t2)
      simp

theorem pySplit_single_iff (s : String) (c : Char) :
    (pySplit s c).length < 2 ↔ c ∉ s.data := by
  obtain ⟨h0, t0, hr⟩ := splitCharList_cons c s.data
  simp only [pySplit, hr, List.map_cons, List.length_cons]
  cases t0 with
  | nil =>
    have h0s : h0 = s.data := by
      have h2 := joinCharList_splitCharList c s.data
      rw [hr] at h2
      simpa only [joinCharList] using h2
    exact iff_of_true (by simp)
      ((splitCharList_eq_single_iff c s.data).mp (by rw [hr, h0s]))
  | cons t1 t2 =>
    refine iff_of_false (by simp) (fun hno => ?_)
    have h2 := (splitCharList_eq_single_iff c s.data).mpr hno
    rw [hr] at h2
    have : t1 :: t2 = [] := by injection h2
    exact List.noConfusion this

/-- C6: the field parser returns absent exactly when splitting on `|` yields
fewer than two segments (equivalently, when the line contains no `|`);
a segment is split at its first colon into a colon-free key and a value that
may itself contain colons, and reassembling key, colon and value gives back
the segment; a segment is skipped (no colon found) exactly when it contains
no colon; and the spec's worked example parses as stated. -/
theorem C6_field_parsing (line : String) :
    (parse_log_line line = none ↔ (pySplit line '|').length < 2) ∧
    (parse_log_line line = none ↔ '|' ∉ line.data) ∧
    (∀ field k v, splitFirstColon field = some (k, v) → ':' ∉ k.data ∧ field = k ++ ":" ++ v) ∧
    (∀ field, splitFirstColon field = none ↔ ':' ∉ field.data) ∧
    parse_log_line "2024/01/01 10:00:00|Info|Number:123|Call_Type:voice_call" =
      some [("Number", "123"), ("Call_Type", "voice_call")] := by
  have h1 : parse_log_line line = none ↔ (pySplit line '|').length < 2 := by
    by_cases hlt : (pySplit line '|').length < 2
    · exact iff_of_true (by simp only [parse_log_line]; rw [if_pos hlt]) hlt
    · refine iff_of_false ?_ hlt
      simp only [parse_log_line]
      rw [if_neg hlt]
      simp
  exact ⟨h1, h1.trans (pySplit_single_iff line '|'),
    fun field k v h => splitFirstColon_some field k v h,
    fun field => splitFirstColon_none_iff field, by decide⟩

theorem C6_field_parsing_witness :
    parse_log_line "nopipe" = none ∧
    (':' ∉ ("Call_Type" : String).data ∧
      ("Call_Type:voice:call" : String) = "Call_Type" ++ ":" ++ "voice:call") :=
  ⟨(C6_field_parsing "nopipe").1.mpr (by decide),
   (C6_field_parsing "nopipe").2.2.1 "Call_Type:voice:call" "Call_Type" "voice:call" (by decide)⟩

/-- C5 counterexample: the window line `"2024|Info|junk"` has three
`|`-segments and discriminator `Info` but zero valid `key:value` fields; the
field parser returns the empty dict (not absent), yet the assembler skips the
line (Python `if not parsed` is true for an empty dict), so `Info` stays
unset instead of being set to an empty FieldMap. -/
theorem C5_counterexample_empty_fieldmap_skipped :
    parse_log_line (pyStrip "2024|Info|junk") = some [] ∧
    App.step (App.init "f.mp3") "2024|Info|junk" = App.init "f.mp3" ∧
    App.process_logs ["2024|Info|junk", "1", "Telsa64"] "f.mp3" =
      some { FileName := "f.mp3", Info := none, Info_line := none,
             Number := some [("Number", App.unknownMarker)], CallWindow := none } := by
  decide

/-- C5 (amended): a window line is skipped whenever field parsing yields
absent or an empty FieldMap — the loops of both pipelines leave the record
unchanged in either case, so a line with two or more segments but zero valid
`key:value` fields leaves the corresponding record field unset. -/
theorem C5_skip_on_absent_or_empty (e : App.Entry) (e2 : CallLogs.Entry) (raw : String)
    (h : parse_log_line (pyStrip raw) = none ∨ parse_log_line (pyStrip raw) = some []) :
    App.step e raw = e ∧ CallLogs.step e2 raw = e2 := by
  rcases h with hp | hp
  · have hlen : (pySplit (pyStrip raw) '|').length < 2 := by
      by_contra hlt
      simp only [parse_log_line] at hp
      rw [if_neg hlt] at hp
      exact Option.noConfusion hp
    constructor
    · simp only [App.step]
      rw [if_pos hlen]
    · simp only [CallLogs.step]
      rw [if_pos hlen]
  · constructor
    · simp only [App.step, hp]
      split
      · rfl
      · simp
    · simp only [CallLogs.step, hp]
      split
      · rfl
      · simp

theorem C5_skip_on_absent_or_empty_witness :
    App.step (App.init "g.wav") "2024|Number|broken" = App.init "g.wav" ∧
    CallLogs.step (CallLogs.init "g.wav") "2024|Number|broken" = CallLogs.init "g.wav" :=
  C5_skip_on_absent_or_empty (App.init "g.wav") (CallLogs.init "g.wav") "2024|Number|broken"
    (Or.inr (by decide))

/-- C1 counterexample: `["5", "Telsa64"]` ends in the sentinel and has the
valid integer count line `5`, which exceeds the zero available preceding
lines; `call_logs.py`'s `process_logs` returns no record (its
`start_index < 0` branch) instead of clamping the window and producing
one. -/
theorem C1_counterexample_call_logs_underflow :
    pyStrip "Telsa64" = "Telsa64" ∧ parseInt (pyStrip "5") = some 5 ∧
    CallLogs.process_logs ["5", "Telsa64"] "f.mp3" = none := by
  decide

/-- C1 (amended): in `app.py` the claim holds: for every line list ending in
the sentinel with a valid integer count line `N`, the window is
`lines[max 0 ((lastIndex - 1) - N) : lastIndex - 1]` and a record is always
produced; when `N` is at least the number of available preceding lines the
window start clamps to 0 and the window is all lines before the count line.
`call_logs.py` instead fails (returns no record) when `N` exceeds the
available preceding lines. -/
theorem C1_app_window_clamped (lines : List String) (name : String) (n : Int)
    (h2 : 2 ≤ lines.length)
    (hs : pyStrip ((lines.getLast?).getD "") = "Telsa64")
    (hn : parseInt (pyStrip ((lines.get? (lines.length - 2)).getD "")) = some n) :
    App.process_logs lines name =
      some (App.finish
        ((pySlice lines (max 0 (((lines.length - 2 : Nat) : Int) - n))
            ((lines.length - 2 : Nat) : Int)).foldl App.step (App.init name))) ∧
    (((lines.length - 2 : Nat) : Int) ≤ n →
      App.process_logs lines name =
        some (App.finish ((lines.take (lines.length - 2)).foldl App.step (App.init name)))) := by
  refine ⟨app_process_logs_eq lines name n h2 hs hn, fun hle => ?_⟩
  rw [app_process_logs_eq lines name n h2 hs hn]
  have hmax : max 0 (((lines.length - 2 : Nat) : Int) - n) = 0 := max_eq_left (by omega)
  rw [hmax, pySlice_zero lines _ (by omega) (by omega),
    show ((lines.length - 2 : Nat) : Int).toNat = lines.length - 2 by omega]

theorem C1_app_window_clamped_witness :
    App.process_logs ["a|Number|Number:9", "5", "Telsa64"] "f.mp3" =
      some (App.finish (((["a|Number|Number:9", "5", "Telsa64"] : List String).take 1).foldl
        App.step (App.init "f.mp3"))) :=
  (C1_app_window_clamped ["a|Number|Number:9", "5", "Telsa64"] "f.mp3" 5
    (by decide) (by decide) (by decide)).2 (by decide)

/-- C2 counterexample: `call_logs.py`'s `save_to_json` performs no duplicate
check; appending the same record (same `FileName`) twice to an initially
empty store leaves two entries for that name, not one. -/
theorem C2_counterexample_call_logs_duplicate_append :
    ((CallLogs.save_to_json
        (CallLogs.save_to_json (some []) true true
          { FileName := "f.mp3", Info := none, Number := none, CallWindow := none }).fs
        true true
        { FileName := "f.mp3", Info := none, Number := none, CallWindow := none }).fs.getD
          []).countP (fun x => decide (x.FileName = "f.mp3")) = 2 := by
  decide

/-- C2 (amended): `app.py`'s `save_to_json` is idempotent by `FileName`: when
some existing entry carries the record's `FileName`, the durable store is
left unchanged (for any fault flags), and appending the same `FileName` twice
to a store without it leaves exactly one entry for that name.
`call_logs.py`'s variant has no duplicate check and appends every time. -/
theorem C2_app_append_idempotent :
    (∀ (db : List App.Entry) (readOk writeOk : Bool) (e : App.Entry),
        (∃ x ∈ db, x.FileName = e.FileName) →
        (App.save_to_json (some db) readOk writeOk e).fs = some db) ∧
    (∀ (db : List App.Entry) (e : App.Entry),
        (∀ x ∈ db, x.FileName ≠ e.FileName) →
        ((App.save_to_json ((App.save_to_json (some db) true true e).fs) true true e).fs.getD
            []).countP (fun x => decide (x.FileName = e.FileName)) = 1) := by
  constructor
  · rintro db readOk writeOk e ⟨x, hx, hfn⟩
    have hany : (db.any fun x => x.FileName = e.FileName) = true := by
      simp only [List.any_eq_true, decide_eq_true_eq]
      exact ⟨x, hx, hfn⟩
    cases readOk with
    | false => rfl
    | true =>
      simp only [App.save_to_json]
      rw [if_pos trivial, if_pos hany]
  · intro db e h
    have hany : (db.any fun x => x.FileName = e.FileName) = false := by
      simp only [List.any_eq_false, decide_eq_true_eq]
      exact h
    have h1 : (App.save_to_json (some db) true true e).fs = some (db ++ [e]) := by
      simp only [App.save_to_json]
      rw [if_pos trivial, if_neg (by simp [hany]), if_pos trivial]
    rw [h1]
    have hany2 : ((db ++ [e]).any fun x => x.FileName = e.FileName) = true := by
      simp only [List.any_eq_true, decide_eq_true_eq]
      exact ⟨e, by simp, rfl⟩
    have h2 : (App.save_to_json (some (db ++ [e])) true true e).fs = some (db ++ [e]) := by
      simp only [App.save_to_json]
      rw [if_pos trivial, if_pos hany2]
    rw [h2]
    simp only [Option.getD_some, List.countP_append]
    rw [List.countP_eq_zero.mpr (by intro a ha; simpa using h a ha)]
    simp [List.countP_cons]

theorem C2_app_append_idempotent_witness :
    ((App.save_to_json
        ((App.save_to_json (some []) true true
            { FileName := "f.mp3", Info := none, Info_line := none, Number := none,
              CallWindow := none }).fs) true true
        { FileName := "f.mp3", Info := none, Info_line := none, Number := none,
          CallWindow := none }).fs.getD []).countP
      (fun x => decide (x.FileName = "f.mp3")) = 1 :=
  C2_app_append_idempotent.2 []
    { FileName := "f.mp3", Info := none, Info_line := none, Number := none, CallWindow := none }
    (by simp)

/-- C3 counterexample: with a read failure injected, `app.py`'s
`save_to_json` neither raises to its caller nor returns any value (the
`try/except` prints and swallows the error; the function returns Python
`None`, not a boolean `appended` flag), so the persistence failure is not
reported to the caller. -/
theorem C3_counterexample_failure_swallowed :
    (App.save_to_json (some []) false true
        { FileName := "f.mp3", Info := none, Info_line := none, Number := none,
          CallWindow := none }).raisedToCaller = false ∧
    (App.save_to_json (some []) false true
        { FileName := "f.mp3", Info := none, Info_line := none, Number := none,
          CallWindow := none }).returned = none := by
  decide

/-- C3 (amended): both `save_to_json` variants return Python `None` (no
`appended` boolean) and let no exception escape to the caller, whatever
faults occur; under the model's all-or-nothing write, the durable state is
unchanged when the read fails on an existing store or when the write
fails. -/
theorem C3_save_reports_nothing :
    (∀ (fs : Option (List App.Entry)) (readOk writeOk : Bool) (e : App.Entry),
        (App.save_to_json fs readOk writeOk e).raisedToCaller = false ∧
        (App.save_to_json fs readOk writeOk e).returned = none ∧
        (readOk = false → ∀ db, fs = some db →
          (App.save_to_json fs readOk writeOk e).fs = some db) ∧
        (writeOk = false → (App.save_to_json fs readOk writeOk e).fs = fs)) ∧
    (∀ (fs : Option (List CallLogs.Entry)) (readOk writeOk : Bool) (e : CallLogs.Entry),
        (CallLogs.save_to_json fs readOk writeOk e).raisedToCaller = false ∧
        (CallLogs.save_to_json fs readOk writeOk e).returned = none ∧
        (readOk = false → ∀ db, fs = some db →
          (CallLogs.save_to_json fs readOk writeOk e).fs = some db) ∧
        (writeOk = false → (CallLogs.save_to_json fs readOk writeOk e).fs = fs)) := by
  constructor
  · intro fs readOk writeOk e
    refine ⟨?_, ?_, ?_, ?_⟩
    · cases fs <;> cases readOk <;> cases writeOk <;> simp only [App.save_to_json] <;>
        (repeat' split) <;> rfl
    · cases fs <;> cases readOk <;> cases writeOk <;> simp only [App.save_to_json] <;>
        (repeat' split) <;> rfl
    · rintro hro db rfl
      subst hro
      cases writeOk <;> simp only [App.save_to_json] <;> (repeat' split) <;> first | rfl | simp_all
    · rintro rfl
      cases fs <;> cases readOk <;> simp only [App.save_to_json] <;> (repeat' split) <;> first | rfl | simp_all
  · intro fs readOk writeOk e
    refine ⟨?_, ?_, ?_, ?_⟩
    · cases fs <;> cases readOk <;> cases writeOk <;> simp only [CallLogs.save_to_json] <;>
        (repeat' split) <;> rfl
    · cases fs <;> cases readOk <;> cases writeOk <;> simp only [CallLogs.save_to_json] <;>
        (repeat' split) <;> rfl
    · rintro hro db rfl
      subst hro
      cases writeOk <;> simp only [CallLogs.save_to_json] <;> (repeat' split) <;> first | rfl | simp_all
    · rintro rfl
      cases fs <;> cases readOk <;> simp only [CallLogs.save_to_json] <;> (repeat' split) <;> first | rfl | simp_all

theorem C3_save_reports_nothing_witness :
    (App.save_to_json (some []) false true
        { FileName := "g.wav", Info := none, Info_line := none, Number := none,
          CallWindow := none }).fs = some [] :=
  ((C3_save_reports_nothing.1 (some []) false true
      { FileName := "g.wav", Info := none, Info_line := none, Number := none,
        CallWindow := none }).2.2.1 rfl [] rfl)

/-- C8: with fewer than two lines, or a last line whose stripped text is not
the sentinel `"Telsa64"`, neither pipeline produces a record (both total
functions return `none`; in `call_logs.py` the one-line-sentinel case fails
inside the `int(...)` conversion, which is caught). -/
theorem C8_no_sentinel_no_record (lines : List String) (name : String)
    (h : lines.length < 2 ∨ pyStrip ((lines.getLast?).getD "") ≠ "Telsa64") :
    App.process_logs lines name = none ∧ CallLogs.process_logs lines name = none := by
  constructor
  · simp only [App.process_logs]
    rcases h with h | h
    · rw [if_pos h]
    · by_cases h2 : lines.length < 2
      · rw [if_pos h2]
      · rw [if_neg h2, if_pos h]
  · rcases h with h | h
    · cases lines with
      | nil => rfl
      | cons a rest =>
        have hrest : rest = [] := by
          cases rest with
          | nil => rfl
          | cons b t =>
            simp only [List.length_cons] at h
            omega
        subst hrest
        simp only [CallLogs.process_logs]
        by_cases hs : pyStrip (([a] : List String).getLast?.getD "") = "Telsa64"
        · rw [if_neg (by simp), if_neg (not_not_intro hs)]
          have hg : pyGet [a] ((([a] : List String).length : Int) - 2) = some a := by
            simp only [pyGet, List.length_cons, List.length_nil]
            norm_num
          rw [hg]
          have hsa : pyStrip a = "Telsa64" := by simpa using hs
          simp only [hsa]
          rw [show parseInt "Telsa64" = none from rfl]
        · rw [if_neg (by simp), if_pos hs]
    · simp only [CallLogs.process_logs]
      by_cases he : lines = []
      · rw [if_pos he]
      · rw [if_neg he, if_pos h]

theorem C8_no_sentinel_no_record_witness :
    App.process_logs ["2024|Number|Number:1", "1"] "f.mp3" = none ∧
    CallLogs.process_logs ["2024|Number|Number:1", "1"] "f.mp3" = none :=
  C8_no_sentinel_no_record ["2024|Number|Number:1", "1"] "f.mp3" (Or.inr (by decide))

/-- C4: a window in which no line satisfies the Number-assignment condition
yields the sentinel dict (Persian marker in `app.py`, `"null"` in
`call_logs.py`) as the record's `Number`, and every record either pipeline
produces carries a non-null `Number` value. -/
theorem C4_missing_number_defaults_sentinel :
    (∀ (w : List String) (name : String), (∀ l ∈ w, isNumberLine l = false) →
      (App.finish (w.foldl App.step (App.init name))).Number =
          some [("Number", App.unknownMarker)] ∧
      (CallLogs.finish (w.foldl CallLogs.step (CallLogs.init name))).Number =
          some [("Number", "null")]) ∧
    (∀ lines name r, App.process_logs lines name = some r → r.Number.isSome) ∧
    (∀ lines name r, CallLogs.process_logs lines name = some r → r.Number.isSome) := by
  refine ⟨fun w name h => ⟨?_, ?_⟩, fun lines name r hr => ?_, fun lines name r hr => ?_⟩
  · have hnum := app_foldl_step_Number_none w (App.init name) h rfl
    unfold App.finish
    rw [if_pos hnum]
  · have hnum := cl_foldl_step_Number_none w (CallLogs.init name) h rfl
    unfold CallLogs.finish
    rw [if_pos hnum]
  · obtain ⟨n, _, hr2⟩ := app_process_logs_some lines name r hr
    rw [hr2]
    exact app_finish_Number_isSome _
  · obtain ⟨c, n, _, _, _, hr2⟩ := cl_process_logs_some lines name r hr
    rw [hr2]
    exact cl_finish_Number_isSome _

theorem C4_missing_number_defaults_sentinel_witness :
    (App.finish ((["2024|Info|a:b"] : List String).foldl App.step (App.init "f.mp3"))).Number =
        some [("Number", App.unknownMarker)] ∧
    (CallLogs.finish ((["2024|Info|a:b"] : List String).foldl CallLogs.step
        (CallLogs.init "f.mp3"))).Number = some [("Number", "null")] :=
  C4_missing_number_defaults_sentinel.1 ["2024|Info|a:b"] "f.mp3" (by decide)

theorem pySlice_subset (l : List String) (a b : Int) : pySlice l a b ⊆ l :=
  fun _ hx => List.drop_subset _ _ (List.take_subset _ _ hx)

theorem app_finish_Info (e : App.Entry) :
    (App.finish e).Info = e.Info ∧ (App.finish e).Info_line = e.Info_line := by
  unfold App.finish
  split <;> exact ⟨rfl, rfl⟩

/-- C9: in both per-line loops, a later line of a given record type
overwrites whatever an earlier line of the same type left behind: appending
one more window line whose discriminator is `Info`, `Number` or `CallWindow`
and whose parse is non-empty makes the corresponding field equal to that
last line's dict, whatever the preceding window contained. -/
theorem C9_last_wins (w : List String) (name : String) (raw : String) (d : Dict)
    (hp : parse_log_line (pyStrip raw) = some d) (hd : d ≠ []) :
    (lineType raw = "Info" →
      ((w ++ [raw]).foldl App.step (App.init name)).Info = some d ∧
      ((w ++ [raw]).foldl App.step (App.init name)).Info_line = some (pyStrip raw) ∧
      ((w ++ [raw]).foldl CallLogs.step (CallLogs.init name)).Info =
        some (dictInsert (dictInsert d "Date" (((pySplit (pyStrip raw) '|').get? 0).getD ""))
          "RawLine" (pyStrip raw))) ∧
    (lineType raw = "Number" →
      ((w ++ [raw]).foldl App.step (App.init name)).Number = some d ∧
      ((w ++ [raw]).foldl CallLogs.step (CallLogs.init name)).Number = some d) ∧
    (lineType raw = "CallWindow" →
      ((w ++ [raw]).foldl App.step (App.init name)).CallWindow = some d ∧
      ((w ++ [raw]).foldl CallLogs.step (CallLogs.init name)).CallWindow = some d) := by
  simp only [List.foldl_append, List.foldl_cons, List.foldl_nil]
  refine ⟨fun ht => ?_, fun ht => ?_, fun ht => ?_⟩
  · exact ⟨((app_step_sets _ raw d hp hd).1 ht).1, ((app_step_sets _ raw d hp hd).1 ht).2,
      (cl_step_sets _ raw d hp hd).1 ht⟩
  · exact ⟨(app_step_sets _ raw d hp hd).2.1 ht, (cl_step_sets _ raw d hp hd).2.1 ht⟩
  · exact ⟨(app_step_sets _ raw d hp hd).2.2 ht, (cl_step_sets _ raw d hp hd).2.2 ht⟩

theorem C9_last_wins_witness :
    ((["x|Number|Number:1", "y|Number|Number:2"] : List String).foldl App.step
        (App.init "f.mp3")).Number = some [("Number", "2")] ∧
    ((["x|Number|Number:1", "y|Number|Number:2"] : List String).foldl CallLogs.step
        (CallLogs.init "f.mp3")).Number = some [("Number", "2")] :=
  (C9_last_wins ["x|Number|Number:1"] "f.mp3" "y|Number|Number:2" [("Number", "2")]
    (by decide) (by decide)).2.1 (by decide)

/-- C7 counterexample: `call_logs.py`'s record has no `Info_line` field, and
its `Info` dict is not only the parsed `key:value` fields of the Info line —
the loop injects `Date` (the first `|`-segment) and `RawLine` (the whole
stripped line) before storing it. -/
theorem C7_counterexample_call_logs_record_shape :
    CallLogs.process_logs ["2024/01/01|Info|a:b", "1", "Telsa64"] "f.mp3" =
      some { FileName := "f.mp3",
             Info := some [("a", "b"), ("Date", "2024/01/01"),
                           ("RawLine", "2024/01/01|Info|a:b")],
             Number := some [("Number", "null")], CallWindow := none } ∧
    parse_log_line (pyStrip "2024/01/01|Info|a:b") = some [("a", "b")] := by
  decide

/-- C7 (amended): `app.py`'s record carries exactly the fields `FileName`,
`Info`, `Info_line`, `Number` (never null) and `CallWindow`, with `Info`
exactly the dict the field parser produced for some input line and
`Info_line` that line's stripped text; `call_logs.py`'s record has no
`Info_line` field and its `Info`, when set, additionally contains the
injected `Date` and `RawLine` keys. -/
theorem C7_app_record_shape :
    (∀ lines name r, App.process_logs lines name = some r →
        r.FileName = name ∧ r.Number.isSome ∧
        (r.Info = none → r.Info_line = none) ∧
        (∀ d, r.Info = some d →
          ∃ l ∈ lines, parse_log_line (pyStrip l) = some d ∧
            r.Info_line = some (pyStrip l))) ∧
    (∀ (e : CallLogs.Entry) (raw : String), (CallLogs.step e raw).Info ≠ e.Info →
        ∃ d, parse_log_line (pyStrip raw) = some d ∧ d ≠ [] ∧
          (CallLogs.step e raw).Info =
            some (dictInsert (dictInsert d "Date" (((pySplit (pyStrip raw) '|').get? 0).getD ""))
              "RawLine" (pyStrip raw))) := by
  constructor
  · intro lines name r hr
    obtain ⟨n, _, hr2⟩ := app_process_logs_some lines name r hr
    set w := pySlice lines (max 0 (((lines.length - 2 : Nat) : Int) - n))
      ((lines.length - 2 : Nat) : Int) with hw
    have hFN : r.FileName = name := by
      rw [hr2, app_finish_FileName, app_foldl_step_FileName]
      rfl
    have hNum : r.Number.isSome := by
      rw [hr2]
      exact app_finish_Number_isSome _
    have hInfo : r.Info = (w.foldl App.step (App.init name)).Info ∧
        r.Info_line = (w.foldl App.step (App.init name)).Info_line := by
      rw [hr2]
      exact ⟨(app_finish_Info _).1, (app_finish_Info _).2⟩
    refine ⟨hFN, hNum, ?_, ?_⟩
    · intro hnone
      rcases app_foldl_step_Info w (App.init name) with ⟨h1, h2⟩ | ⟨l, hl, d, hpd, hdne, h1, h2⟩
      · rw [hInfo.2, h2]
        rfl
      · rw [hInfo.1, h1] at hnone
        exact Option.noConfusion hnone
    · intro d hd
      rcases app_foldl_step_Info w (App.init name) with ⟨h1, h2⟩ | ⟨l, hl, d2, hpd, hdne, h1, h2⟩
      · rw [hInfo.1, h1] at hd
        exact Option.noConfusion hd
      · have hdd : d2 = d := by
          rw [hInfo.1, h1] at hd
          injection hd
        refine ⟨l, pySlice_subset lines _ _ hl, ?_, ?_⟩
        · rw [← hdd]
          exact hpd
        · rw [hInfo.2, h2]
  · intro e raw hne
    simp only [CallLogs.step] at hne
    split at hne
    · exact absurd rfl hne
    split at hne
    · exact absurd rfl hne
    rename_i parsed heq
    split at hne
    · exact absurd rfl hne
    rename_i hpne
    split at hne
    · rename_i htype
      refine ⟨parsed, heq, hpne, ?_⟩
      have := (cl_step_sets e raw parsed heq hpne).1
      exact this (by simpa [lineType] using htype)
    split at hne
    · exact absurd rfl hne
    split at hne
    · exact absurd rfl hne
    · exact absurd rfl hne

theorem C7_app_record_shape_witness :
    ({ FileName := "f.mp3", Info := some [("a", "b")], Info_line := some "2024|Info|a:b",
       Number := some [("Number", App.unknownMarker)], CallWindow := none } :
        App.Entry).FileName = "f.mp3" ∧
    ({ FileName := "f.mp3", Info := some [("a", "b")], Info_line := some "2024|Info|a:b",
       Number := some [("Number", App.unknownMarker)], CallWindow := none } :
        App.Entry).Number.isSome :=
  ⟨(C7_app_record_shape.1 ["2024|Info|a:b", "1", "Telsa64"] "f.mp3"
      { FileName := "f.mp3", Info := some [("a", "b")], Info_line := some "2024|Info|a:b",
        Number := some [("Number", App.unknownMarker)], CallWindow := none } (by decide)).1,
   (C7_app_record_shape.1 ["2024|Info|a:b", "1", "Telsa64"] "f.mp3"
      { FileName := "f.mp3", Info := some [("a", "b")], Info_line := some "2024|Info|a:b",
        Number := some [("Number", App.unknownMarker)], CallWindow := none } (by decide)).2.1⟩

/-- C10: every run of either `process_logs` terminates with `none` or with a
record whose `FileName` is the given name and whose `Number` is non-null
(the embedding is a total function, so no exception escapes); and a count
line parsing to `N ≤ 0` yields an empty window and the default record
(file name plus sentinel `Number` only). -/
theorem C10_pipeline_safety :
    (∀ lines name r, App.process_logs lines name = some r →
        r.FileName = name ∧ r.Number.isSome) ∧
    (∀ lines name r, CallLogs.process_logs lines name = some r →
        r.FileName = name ∧ r.Number.isSome) ∧
    (∀ (lines : List String) (name : String) (n : Int),
        2 ≤ lines.length →
        pyStrip ((lines.getLast?).getD "") = "Telsa64" →
        parseInt (pyStrip ((lines.get? (lines.length - 2)).getD "")) = some n →
        n ≤ 0 →
        App.process_logs lines name =
          some { FileName := name, Info := none, Info_line := none,
                 Number := some [("Number", App.unknownMarker)], CallWindow := none } ∧
        CallLogs.process_logs lines name =
          some { FileName := name, Info := none,
                 Number := some [("Number", "null")], CallWindow := none }) := by
  refine ⟨fun lines name r hr => ?_, fun lines name r hr => ?_,
    fun lines name n h2 hs hn hle => ⟨?_, ?_⟩⟩
  · obtain ⟨m, _, hr2⟩ := app_process_logs_some lines name r hr
    constructor
    · rw [hr2, app_finish_FileName, app_foldl_step_FileName]
      rfl
    · rw [hr2]
      exact app_finish_Number_isSome _
  · obtain ⟨c, m, _, _, _, hr2⟩ := cl_process_logs_some lines name r hr
    constructor
    · rw [hr2, cl_finish_FileName, cl_foldl_step_FileName]
      rfl
    · rw [hr2]
      exact cl_finish_Number_isSome _
  · rw [app_process_logs_eq lines name n h2 hs hn,
      pySlice_nil lines (max 0 (((lines.length - 2 : Nat) : Int) - n))
        ((lines.length - 2 : Nat) : Int)
        (pySliceIdx_mono lines.length (max 0 (((lines.length - 2 : Nat) : Int) - n))
          ((lines.length - 2 : Nat) : Int) (by omega) (le_max_of_le_right (by omega)))]
    rfl
  · rw [cl_process_logs_eq lines name n h2 hs hn (by omega),
      pySlice_nil lines ((lines.length : Int) - 2 - n) ((lines.length : Int) - 2)
        (pySliceIdx_mono lines.length ((lines.length : Int) - 2 - n)
          ((lines.length : Int) - 2) (by omega) (by omega))]
    rfl

theorem C10_pipeline_safety_witness :
    App.process_logs ["0", "Telsa64"] "f.mp3" =
      some { FileName := "f.mp3", Info := none, Info_line := none,
             Number := some [("Number", App.unknownMarker)], CallWindow := none } ∧
    CallLogs.process_logs ["0", "Telsa64"] "f.mp3" =
      some { FileName := "f.mp3", Info := none,
             Number := some [("Number", "null")], CallWindow := none } :=
  C10_pipeline_safety.2.2 ["0", "Telsa64"] "f.mp3" 0 (by decide) (by decide) (by decide)
    (by decide)
